import Mathlib

/-!
# Verification of the prep-buddy interview session engine

Shallow embedding of the session-management core of the `prep-buddy`
repository, together with proofs that settle the frozen claims about it.

The embedded components and their sources:

* `SessionLockM` — the cross-tab session lock
  (source: `packages/storage/src/sessionLock.ts`): the stale-lock
  pre-check of `acquireLock`, the localStorage fallback protocol
  `acquireLockWithLocalStorage` (write / settle-and-resolve / verify,
  modelled as a small-step machine over the shared store so that two
  concurrent attempts can be interleaved explicitly), `isBlocked`.
* `QuestionTimerM` — the per-question countdown
  (source: `src/hooks/useQuestionTimer.ts`): the interval tick body and
  `resetTimer`, modelled as a state machine consuming a list of tick
  timestamps (`Date.now()` values) and emitting callback events.
* `TranscriptM` — streaming transcription aggregation
  (sources: `src/services/interviewConfig.ts` for
  `SENTENCE_BOUNDARY_REGEX`, `FILLER_PATTERNS`, `NOISE_PATTERNS`,
  `filterTranscriptionNoise`, `buildQuestionContext`,
  `buildTranscriptSummary`; `src/components/MockInterviewPanel.tsx` for
  the `transcription` callbacks and `handleConnected`;
  `src/hooks/useTranscriptManager.ts` for the buffer flush helpers).
* `FlowM` — the end-of-interview flow (source:
  `src/hooks/useInterviewFlow.ts`, `handleInterviewEnd`).
* `SessionConnM` — session teardown (source:
  `src/hooks/useInterviewSession.ts`, `stopSession`).
* `ResumeIdM` — the deterministic resume id and `saveResume`
  (source: `packages/storage/src/indexedDB.ts`).
* `QuestionGenM` — the requested question count (source:
  `GeminiService.generateInterviewQuestions` and
  `config/interview.ts`).

Machine integers follow the JavaScript semantics explicitly: the resume
hash wraps to a signed 32-bit integer after every step (`toInt32`);
timestamps are modelled as unbounded `Int` (JS numbers hold millisecond
epochs exactly). JavaScript regular expressions are translated into
decidable character-list predicates. Strings are handled through their
character lists; `toLowerCase`/`trim`/`charCodeAt` are embedded for the
ASCII range, which covers every literal the claims touch.
-/

set_option maxRecDepth 4000

/-! ## JS string helpers shared by several components -/

/-- JS `\s` (whitespace) for the characters that can actually occur in the
transcription/lock strings handled here (ASCII whitespace range). -/
def jsIsWhitespace (c : Char) : Bool :=
  c = ' ' || c = '\t' || c = '\n' || c = '\x0d' || c = '\x0b' || c = '\x0c'

/-- JS `String.prototype.trim` on a character list. -/
def jsTrimList (cs : List Char) : List Char :=
  ((cs.dropWhile jsIsWhitespace).reverse.dropWhile jsIsWhitespace).reverse

/-- JS `String.prototype.trim`. -/
def jsTrim (s : String) : String :=
  (jsTrimList s.data).asString

/-- JS `String.prototype.toLowerCase` for the ASCII range. -/
def jsToLowerChar (c : Char) : Char :=
  if 'A' ≤ c ∧ c ≤ 'Z' then Char.ofNat (c.toNat + 32) else c

/-- JS `String.prototype.toLowerCase` (ASCII range). -/
def jsToLower (s : String) : String :=
  (s.data.map jsToLowerChar).asString

/-- JS `<` on strings: lexicographic comparison of UTF-16 code units
(equal to code points for the ASCII/BMP strings handled here). -/
def jsStrLtL : List Char → List Char → Bool
  | [], [] => false
  | [], _ :: _ => true
  | _ :: _, [] => false
  | a :: as, b :: bs =>
    if a.toNat < b.toNat then true
    else if b.toNat < a.toNat then false
    else jsStrLtL as bs

/-- JS `a < b` on strings. -/
def jsStrLt (a b : String) : Bool := jsStrLtL a.data b.data

/-- JS `a <= b` on strings (the order used by the default `Array.sort`). -/
def jsStrLe (a b : String) : Bool := !(jsStrLt b a)

theorem jsTrimList_nil : jsTrimList [] = [] := rfl

theorem dropWhile_head_false {p : α → Bool} {l : List α} :
    ∀ a, (l.dropWhile p).head? = some a → p a = false := by
  induction l with
  | nil => intro a h; simp [List.dropWhile] at h
  | cons x xs ih =>
    intro a h
    by_cases hx : p x = true
    · rw [List.dropWhile_cons_of_pos hx] at h; exact ih a h
    · rw [List.dropWhile_cons_of_neg hx] at h
      simp at h
      rw [h] at hx
      simpa using hx

/-! ## SessionLock (packages/storage/src/sessionLock.ts) -/

namespace SessionLockM

/-- `LOCK_TIMEOUT_MS = 2 * 60 * 60 * 1000` — the 2-hour stale-lock timeout. -/
def LOCK_TIMEOUT_MS : Int := 2 * 60 * 60 * 1000

/-- The lock record `{ sessionId, lockedAt }` stored under `LOCK_KEY`. -/
structure LockRec where
  sessionId : String
  lockedAt : Int
deriving DecidableEq, Repr

/-- The shared-storage cell holding the serialized lock record
(`localStorage[LOCK_KEY]`); `none` when the key is absent. -/
abbrev Store := Option LockRec

/-- `getLock()` — reads the current record. -/
def getLock (s : Store) : Option LockRec := s

/-- `clearLock()` — removes the record. -/
def clearLock : Store := none

/-- `setLock(lock)`. -/
def setLock (l : LockRec) : Store := some l

/-- `isBlocked()`: returns whether an active (non-stale) lock exists, and the
store afterwards (a stale lock is auto-cleared as a side effect). -/
def isBlocked (s : Store) (now : Int) : Bool × Store :=
  match getLock s with
  | none => (false, s)
  | some existing =>
    if now - existing.lockedAt ≥ LOCK_TIMEOUT_MS then (false, clearLock)
    else (true, s)

/-! ### The localStorage fallback protocol as a small-step machine

`acquireLockWithLocalStorage` performs three storage accesses separated by
timers: (1) write our tentative record; (2) after the 100 ms settle delay,
re-read and resolve deterministically (earlier `lockedAt` wins, smaller
`sessionId` breaks exact ties), rewriting our record on a win; (3) after a
further 50 ms, re-read to verify a win.  Each access is one atomic step on
the shared store; interleavings of two concurrent calls are schedules of
these steps. -/

/-- Control point of one `acquireLockWithLocalStorage` call: before the
initial write, before the post-settle resolve read, before the verify read,
or returned with a result. -/
inductive AcqPhase where
  | toWrite
  | toResolve
  | toVerify
  | done (result : Bool)
deriving DecidableEq, Repr

/-- One in-flight `acquireLockWithLocalStorage(sessionId)` call; `t` is the
`Date.now()` captured as `ourTimestamp` at the start of the call. -/
structure AcqProc where
  sid : String
  t : Int
  phase : AcqPhase
deriving DecidableEq, Repr

/-- One atomic storage access of `acquireLockWithLocalStorage`:

* `toWrite`: `localStorage.setItem(LOCK_KEY, JSON.stringify(ourLock))`.
* `toResolve` (after the 100 ms settle delay): `const current = getLock()`;
  `if (!current) return false`; `if (current.sessionId === sessionId) return
  true`; otherwise `weWin = ourLock.lockedAt < current.lockedAt ||
  (ourLock.lockedAt === current.lockedAt && ourLock.sessionId <
  current.sessionId)`; on a win rewrite our lock and move to the verify
  step, else `return false`.
* `toVerify` (after the further 50 ms): `return verify?.sessionId ===
  sessionId`.

A finished call is inert. -/
def acqStep (store : Store) (p : AcqProc) : Store × AcqProc :=
  match p.phase with
  | .toWrite => (setLock ⟨p.sid, p.t⟩, { p with phase := .toResolve })
  | .toResolve =>
    match getLock store with
    | none => (store, { p with phase := .done false })
    | some current =>
      if current.sessionId = p.sid then
        (store, { p with phase := .done true })
      else if p.t < current.lockedAt ∨ (p.t = current.lockedAt ∧ jsStrLt p.sid current.sessionId = true) then
        (setLock ⟨p.sid, p.t⟩, { p with phase := .toVerify })
      else
        (store, { p with phase := .done false })
  | .toVerify =>
    match getLock store with
    | some verify => (store, { p with phase := .done (verify.sessionId = p.sid) })
    | none => (store, { p with phase := .done false })
  | .done _ => (store, p)

/-- Which of the two concurrent tabs takes the next step. -/
inductive Tab where
  | A
  | B
deriving DecidableEq, Repr

/-- Joint state of the shared store and two concurrent acquire calls. -/
structure TwoAcq where
  store : Store
  pa : AcqProc
  pb : AcqProc
deriving DecidableEq, Repr

/-- Run one step of the chosen tab's acquire call. -/
def twoStep (s : TwoAcq) : Tab → TwoAcq
  | .A => let (st, p) := acqStep s.store s.pa; ⟨st, p, s.pb⟩
  | .B => let (st, p) := acqStep s.store s.pb; ⟨st, s.pa, p⟩

/-- Run a whole interleaving schedule. -/
def runSched (s : TwoAcq) (sched : List Tab) : TwoAcq :=
  sched.foldl twoStep s

/-- Initial state for two concurrent fallback acquires on an empty store
(no pre-existing lock, so both stale pre-checks pass without effect). -/
def initTwo (a b : String) (ta tb : Int) : TwoAcq :=
  ⟨none, ⟨a, ta, .toWrite⟩, ⟨b, tb, .toWrite⟩⟩

/-- `acquireLockWithLocalStorage` run to completion with no competing
writer: the write step followed by the resolve step. -/
def acquireSolo (store : Store) (sid : String) (now : Int) : Bool × Store :=
  let p0 : AcqProc := ⟨sid, now, .toWrite⟩
  let (st1, p1) := acqStep store p0
  let (st2, p2) := acqStep st1 p1
  (match p2.phase with | .done r => r | _ => false, st2)

/-- `acquireLock(sessionId)`: the stale pre-check (another session's record
younger than `LOCK_TIMEOUT_MS` blocks with `false`; an older one is cleared
via `clearLock()` before proceeding), followed by the fallback acquisition
(modelled interference-free here; C1's theorems cover the concurrent case). -/
def acquireLock (store : Store) (sid : String) (now : Int) : Bool × Store :=
  match getLock store with
  | some existing =>
    if existing.sessionId ≠ sid then
      if now - existing.lockedAt < LOCK_TIMEOUT_MS then (false, store)
      else acquireSolo clearLock sid now
    else acquireSolo store sid now
  | none => acquireSolo store sid now

end SessionLockM

namespace SessionLockM

/-- C1 (counterexample): two concurrent fallback `acquire` calls for the
different session ids `"a"` and `"b"`, with no pre-existing lock and an
exact `Date.now()` timestamp tie (both calls start in the same millisecond,
hence within the 100 ms settle window), admit the interleaving
`"a"` writes, `"b"` writes, `"b"` resolves, `"a"` resolves, `"a"` verifies
— in which BOTH calls return `true`: `"b"` reads its own record back before
`"a"`'s tie-break rewrite lands, while `"a"` wins the tie-break and passes
its re-verification.  So it is not the case that exactly one succeeds. -/
theorem acquire_concurrent_tie_both_succeed :
    ("a" : String) ≠ "b" ∧
    (runSched (initTwo "a" "b" 0 0) [.A, .B, .B, .A, .A]).pa.phase = .done true ∧
    (runSched (initTwo "a" "b" 0 0) [.A, .B, .B, .A, .A]).pb.phase = .done true := by
  refine ⟨by decide, ?_, ?_⟩ <;> decide

/-- C1 (amended): for two concurrent fallback `acquire` calls with
*distinct* `lockedAt` timestamps inside the settle window
(`ta < tb < ta + 100`) and no pre-existing lock, under either
time-respecting interleaving (the loser's resolve read lands before or
after the winner's verify read), the call with the earlier `lockedAt`
returns `true` and the other returns `false`; afterwards the store holds
the winner's record, so the losing session subsequently observes
`isBlocked() == true` (as long as the winner's record has not gone stale).
The deterministic tie-break by lexicographically smaller session id exists
in the resolve step, but an exact timestamp tie also admits a schedule in
which both calls succeed (see the counterexample). -/
theorem acquire_concurrent_earlier_wins (a b : String) (ta tb now : Int)
    (hab : a ≠ b) (h1 : ta < tb) (h2 : tb < ta + 100) (sched : List Tab)
    (hs : sched = [.A, .B, .A, .B, .A] ∨ sched = [.A, .B, .A, .A, .B])
    (hfresh : now - ta < LOCK_TIMEOUT_MS) :
    (runSched (initTwo a b ta tb) sched).pa.phase = .done true ∧
    (runSched (initTwo a b ta tb) sched).pb.phase = .done false ∧
    (runSched (initTwo a b ta tb) sched).store = some ⟨a, ta⟩ ∧
    (isBlocked (runSched (initTwo a b ta tb) sched).store now).1 = true := by
  have hba : (b = a) = False := eq_false (Ne.symm hab)
  have hwinA : (ta < tb ∨ (ta = tb ∧ jsStrLt a b = true)) = True := eq_true (Or.inl h1)
  have hwinB : (tb < ta ∨ (tb = ta ∧ jsStrLt b a = true)) = False := by
    apply eq_false
    rintro (h | ⟨h, _⟩) <;> omega
  have hrun : runSched (initTwo a b ta tb) sched
      = ⟨some ⟨a, ta⟩, ⟨a, ta, .done true⟩, ⟨b, tb, .done false⟩⟩ := by
    rcases hs with h | h <;> subst h <;>
      · simp only [runSched, List.foldl, twoStep, acqStep, initTwo, getLock, setLock,
          hba, hwinA, hwinB, eq_false hab, if_true, if_false]
        simp
  rw [hrun]
  refine ⟨rfl, rfl, rfl, ?_⟩
  simp only [isBlocked, getLock, LOCK_TIMEOUT_MS]
  rw [if_neg (by simp only [LOCK_TIMEOUT_MS] at hfresh; omega)]

/-- C1 (witness): the amended theorem applied at concrete inputs:
ids `"a"`, `"b"`, timestamps `0 < 10 < 0 + 100`, first schedule,
`isBlocked` queried at `now = 200`. -/
theorem acquire_concurrent_earlier_wins_witness :
    (runSched (initTwo "a" "b" 0 10) [.A, .B, .A, .B, .A]).pa.phase = .done true ∧
    (runSched (initTwo "a" "b" 0 10) [.A, .B, .A, .B, .A]).pb.phase = .done false ∧
    (runSched (initTwo "a" "b" 0 10) [.A, .B, .A, .B, .A]).store = some ⟨"a", 0⟩ ∧
    (isBlocked (runSched (initTwo "a" "b" 0 10) [.A, .B, .A, .B, .A]).store 200).1 = true :=
  acquire_concurrent_earlier_wins "a" "b" 0 10 200 (by decide) (by decide)
    (by decide) _ (Or.inl rfl) (by decide)

end SessionLockM

namespace SessionLockM

/-- C2: `acquireLock(id)` with another session's record in the store:
if the record is younger than the 2-hour staleness timeout, the call
returns `false` and leaves the record in place; if the record is at least
2 hours old it is silently cleared before the new attempt, and the
(uncontended) attempt then succeeds, installing the new session's record —
so a stale lock is acquirable without manual intervention. -/
theorem acquireLock_stale_handling (sid other : String) (told now : Int)
    (hother : other ≠ sid) :
    (now - told < LOCK_TIMEOUT_MS →
      acquireLock (some ⟨other, told⟩) sid now = (false, some ⟨other, told⟩)) ∧
    (now - told ≥ LOCK_TIMEOUT_MS →
      acquireLock (some ⟨other, told⟩) sid now = (true, some ⟨sid, now⟩)) := by
  constructor
  · intro hyoung
    simp only [acquireLock, getLock]
    rw [if_pos (by simpa using hother), if_pos hyoung]
  · intro hstale
    simp only [acquireLock, getLock]
    rw [if_pos (by simpa using hother), if_neg (by omega)]
    simp [acquireSolo, acqStep, clearLock, setLock, getLock]

/-- C2 (witness): a lock held by `"old"` since epoch 0 blocks `"new"` at
`now = 7199999` (one ms short of 2 h) and is acquirable at `now = 7200000`. -/
theorem acquireLock_stale_handling_witness :
    acquireLock (some ⟨"old", 0⟩) "new" 7199999 = (false, some ⟨"old", 0⟩) ∧
    acquireLock (some ⟨"old", 0⟩) "new" 7200000 = (true, some ⟨"new", 7200000⟩) :=
  ⟨(acquireLock_stale_handling "new" "old" 0 7199999 (by decide)).1 (by decide),
   (acquireLock_stale_handling "new" "old" 0 7200000 (by decide)).2 (by decide)⟩

end SessionLockM

/-! ## QuestionTimer (src/hooks/useQuestionTimer.ts) -/

namespace QuestionTimerM

/-- `QUESTION_TIMEOUT_MINUTES = 3` (config/interview.ts). -/
def QUESTION_TIMEOUT_MINUTES : Int := 3

/-- `QUESTION_TIME_LIMIT_MS = QUESTION_TIMEOUT_MINUTES * 60 * 1000`. -/
def QUESTION_TIME_LIMIT_MS : Int := QUESTION_TIMEOUT_MINUTES * 60 * 1000

/-- `WRAP_UP_WARNING_THRESHOLD_MS = 30 * 1000`. -/
def WRAP_UP_WARNING_THRESHOLD_MS : Int := 30 * 1000

/-- Timer state: `questionStartTime` / `questionElapsed` (React state) and
the two fired-flags `timeUpTriggeredRef` / `wrapUpWarningTriggeredRef`. -/
structure TimerState where
  questionStartTime : Int
  questionElapsed : Int
  timeUpTriggered : Bool
  wrapUpWarningTriggered : Bool
deriving DecidableEq, Repr

/-- The callbacks a tick can fire. -/
inductive TimerEvent where
  | wrapUpWarning
  | timeUp
deriving DecidableEq, Repr

/-- One `setInterval` tick at wall-clock time `now`, translated line by
line from the interval body:
`if (timeUpTriggeredRef.current) return;`
`const elapsed = Date.now() - questionStartTime; setQuestionElapsed(elapsed);`
`const remaining = QUESTION_TIME_LIMIT_MS - elapsed;`
fire the wrap-up warning once when `remaining <= 30s`;
call `handleTimeUp()` when `elapsed >= limit`, which itself re-checks and
sets `timeUpTriggeredRef` before invoking `onTimeUp`. -/
def tick (s : TimerState) (now : Int) : TimerState × List TimerEvent :=
  if s.timeUpTriggered then (s, [])
  else
    let elapsed := now - s.questionStartTime
    let remaining := QUESTION_TIME_LIMIT_MS - elapsed
    -- The two updates/fires happen in source order: the wrap-up check first,
    -- then `handleTimeUp()` when `elapsed >= limit`.  `handleTimeUp`'s own
    -- re-check of `timeUpTriggeredRef` is vacuously false here because the
    -- early return above already guaranteed the flag is clear and the
    -- wrap-up branch never sets it.
    if remaining ≤ WRAP_UP_WARNING_THRESHOLD_MS ∧ s.wrapUpWarningTriggered = false then
      if elapsed ≥ QUESTION_TIME_LIMIT_MS then
        ({ s with questionElapsed := elapsed, wrapUpWarningTriggered := true,
                  timeUpTriggered := true },
         [TimerEvent.wrapUpWarning, TimerEvent.timeUp])
      else
        ({ s with questionElapsed := elapsed, wrapUpWarningTriggered := true },
         [TimerEvent.wrapUpWarning])
    else
      if elapsed ≥ QUESTION_TIME_LIMIT_MS then
        ({ s with questionElapsed := elapsed, timeUpTriggered := true },
         [TimerEvent.timeUp])
      else
        ({ s with questionElapsed := elapsed }, [])

/-- Process a list of tick times in order, concatenating fired events. -/
def runTicks (s : TimerState) : List Int → TimerState × List TimerEvent
  | [] => (s, [])
  | t :: ts =>
    let (s1, evs1) := tick s t
    let (s2, evs2) := runTicks s1 ts
    (s2, evs1 ++ evs2)

/-- `resetTimer()`: re-anchor the start time to `now`, zero the elapsed
time, clear both fired-flags. -/
def resetTimer (now : Int) : TimerState :=
  { questionStartTime := now, questionElapsed := 0,
    timeUpTriggered := false, wrapUpWarningTriggered := false }

theorem tick_start_invariant (s : TimerState) (t : Int) :
    (tick s t).1.questionStartTime = s.questionStartTime := by
  unfold tick
  split
  · rfl
  · dsimp only
    split <;> split <;> rfl

/-- A tick after the expiry flag is set changes nothing and fires nothing. -/
theorem tick_after_timeUp (s : TimerState) (t : Int)
    (h : s.timeUpTriggered = true) : tick s t = (s, []) := by
  unfold tick
  rw [if_pos h]

/-- Some tick reaches the expiry condition `elapsed >= limit`. -/
def hitsLimit (start : Int) (ts : List Int) : Bool :=
  ts.any fun t => decide (QUESTION_TIME_LIMIT_MS ≤ t - start)

/-- Some tick reaches the warning condition `remaining <= threshold`. -/
def hitsWarn (start : Int) (ts : List Int) : Bool :=
  ts.any fun t => decide (QUESTION_TIME_LIMIT_MS - (t - start) ≤ WRAP_UP_WARNING_THRESHOLD_MS)

theorem runTicks_count_spec (ts : List Int) : ∀ (s : TimerState),
    (s.timeUpTriggered = true → s.wrapUpWarningTriggered = true) →
    ((runTicks s ts).2.count TimerEvent.timeUp
      = if s.timeUpTriggered = false ∧ hitsLimit s.questionStartTime ts = true then 1 else 0)
    ∧ ((runTicks s ts).2.count TimerEvent.wrapUpWarning
      = if s.wrapUpWarningTriggered = false ∧ hitsWarn s.questionStartTime ts = true then 1 else 0) := by
  induction ts with
  | nil =>
    intro s hinv
    simp [runTicks, hitsLimit, hitsWarn]
  | cons t ts ih =>
    intro s hinv
    by_cases htu : s.timeUpTriggered = true
    · have hwu : s.wrapUpWarningTriggered = true := hinv htu
      have hstep : tick s t = (s, []) := tick_after_timeUp s t htu
      obtain ⟨ih1, ih2⟩ := ih s hinv
      simp [runTicks, hstep, ih1, ih2, htu, hwu]
    · replace htu : s.timeUpTriggered = false := by simpa using htu
      have hne : ¬ s.timeUpTriggered = true := by simp [htu]
      by_cases hexp : t - s.questionStartTime ≥ QUESTION_TIME_LIMIT_MS
      · have hrem : QUESTION_TIME_LIMIT_MS - (t - s.questionStartTime)
            ≤ WRAP_UP_WARNING_THRESHOLD_MS := by
          simp only [QUESTION_TIME_LIMIT_MS, QUESTION_TIMEOUT_MINUTES,
            WRAP_UP_WARNING_THRESHOLD_MS] at hexp ⊢
          omega
        by_cases hwu : s.wrapUpWarningTriggered = false
        · have hstep : tick s t =
              ((show TimerState from
                { s with questionElapsed := t - s.questionStartTime,
                         wrapUpWarningTriggered := true, timeUpTriggered := true }),
               [TimerEvent.wrapUpWarning, TimerEvent.timeUp]) := by
            unfold tick
            rw [if_neg hne]
            dsimp only
            rw [if_pos ⟨hrem, hwu⟩, if_pos hexp]
          obtain ⟨ih1, ih2⟩ := ih
            ({ s with questionElapsed := t - s.questionStartTime,
                      wrapUpWarningTriggered := true, timeUpTriggered := true })
            (by intro _; rfl)
          simp only [runTicks, hstep]
          simp [ih1, ih2, htu, hwu, hitsLimit, hitsWarn, List.any_cons, hexp, hrem]
          rw [if_pos (Or.inl (by omega))]
        · replace hwu : s.wrapUpWarningTriggered = true := by simpa using hwu
          have hstep : tick s t =
              ((show TimerState from
                { s with questionElapsed := t - s.questionStartTime,
                         timeUpTriggered := true }),
               [TimerEvent.timeUp]) := by
            unfold tick
            rw [if_neg hne]
            dsimp only
            rw [if_neg (by simp [hwu]), if_pos hexp]
          obtain ⟨ih1, ih2⟩ := ih
            ({ s with questionElapsed := t - s.questionStartTime,
                      timeUpTriggered := true, wrapUpWarningTriggered := true })
            (by intro _; rfl)
          simp only [runTicks, hstep]
          simp [ih1, ih2, htu, hwu, hitsLimit, hitsWarn, List.any_cons, hexp]
      · by_cases hwc : QUESTION_TIME_LIMIT_MS - (t - s.questionStartTime)
            ≤ WRAP_UP_WARNING_THRESHOLD_MS ∧ s.wrapUpWarningTriggered = false
        · have hstep : tick s t =
              ((show TimerState from
                { s with questionElapsed := t - s.questionStartTime,
                         wrapUpWarningTriggered := true }),
               [TimerEvent.wrapUpWarning]) := by
            unfold tick
            rw [if_neg hne]
            dsimp only
            rw [if_pos hwc, if_neg hexp]
          obtain ⟨ih1, ih2⟩ := ih
            ({ s with questionElapsed := t - s.questionStartTime,
                      timeUpTriggered := false, wrapUpWarningTriggered := true })
            (by intro h; simp at h)
          simp only [runTicks, hstep]
          simp [ih1, ih2, htu, hwc.1, hwc.2, hitsLimit, hitsWarn, List.any_cons, hexp]
          rw [if_pos (Or.inl (by have h1 := hwc.1; omega))]
        · have hstep : tick s t =
              ((show TimerState from
                { s with questionElapsed := t - s.questionStartTime }), []) := by
            unfold tick
            rw [if_neg hne]
            dsimp only
            rw [if_neg hwc, if_neg hexp]
          simp only [runTicks, hstep]
          by_cases hwu : s.wrapUpWarningTriggered = false
          · have hnw : ¬ (QUESTION_TIME_LIMIT_MS - (t - s.questionStartTime)
                ≤ WRAP_UP_WARNING_THRESHOLD_MS) := by
              intro hh; exact hwc ⟨hh, hwu⟩
            obtain ⟨ih1, ih2⟩ := ih
              ({ s with questionElapsed := t - s.questionStartTime,
                        timeUpTriggered := false, wrapUpWarningTriggered := false })
              (by intro h; simp at h)
            have hnw2 : ¬ (QUESTION_TIME_LIMIT_MS
                ≤ WRAP_UP_WARNING_THRESHOLD_MS + (t - s.questionStartTime)) := by omega
            simp [ih1, ih2, htu, hwu, hitsLimit, hitsWarn, List.any_cons, hexp, hnw2]
          · replace hwu : s.wrapUpWarningTriggered = true := by simpa using hwu
            obtain ⟨ih1, ih2⟩ := ih
              ({ s with questionElapsed := t - s.questionStartTime,
                        timeUpTriggered := false, wrapUpWarningTriggered := true })
              (by intro h; simp at h)
            simp [ih1, ih2, htu, hwu, hitsLimit, hitsWarn, List.any_cons, hexp]

/-- C3: starting from a `resetTimer()` cycle anchored at `now0`, for every
sequence of timer ticks: the expiry callback fires at most once, and fires
exactly once precisely when some tick reaches `elapsed ≥
QUESTION_TIME_LIMIT_MS`; the wrap-up warning callback likewise fires at
most once, and exactly once precisely when some tick reaches `remaining ≤
30s`; once the expiry flag is set all further ticks are ignored (state
unchanged, no events) until `resetTimer()`, which re-anchors the start
time, zeroes the elapsed time and clears both fired-flags. -/
theorem timer_fires_exactly_once_per_cycle (now0 : Int) (ts : List Int) :
    ((runTicks (resetTimer now0) ts).2.count TimerEvent.timeUp ≤ 1) ∧
    ((runTicks (resetTimer now0) ts).2.count TimerEvent.timeUp = 1 ↔
      ∃ t ∈ ts, t - now0 ≥ QUESTION_TIME_LIMIT_MS) ∧
    ((runTicks (resetTimer now0) ts).2.count TimerEvent.wrapUpWarning ≤ 1) ∧
    ((runTicks (resetTimer now0) ts).2.count TimerEvent.wrapUpWarning = 1 ↔
      ∃ t ∈ ts, QUESTION_TIME_LIMIT_MS - (t - now0) ≤ WRAP_UP_WARNING_THRESHOLD_MS) ∧
    (∀ s u, s.timeUpTriggered = true → tick s u = (s, [])) ∧
    resetTimer now0 = ⟨now0, 0, false, false⟩ := by
  obtain ⟨h1, h2⟩ := runTicks_count_spec ts (resetTimer now0) (by intro h; simp [resetTimer] at h)
  simp only [resetTimer] at h1 h2 ⊢
  rw [h1, h2]
  refine ⟨?_, ?_, ?_, ?_, tick_after_timeUp, trivial⟩
  · split <;> omega
  · simp [hitsLimit, List.any_eq_true]
  · split <;> omega
  · simp [hitsWarn, List.any_eq_true]

end QuestionTimerM

/-! ## TranscriptAggregator (src/services/interviewConfig.ts,
src/components/MockInterviewPanel.tsx, src/hooks/useTranscriptManager.ts) -/

namespace TranscriptM

/-- Message role: `'user' | 'model'`. -/
inductive Role where
  | user
  | model
deriving DecidableEq, Repr

/-- `TranscriptMessage { role, content, timestamp }`. -/
structure TranscriptMessage where
  role : Role
  content : String
  timestamp : Int
deriving DecidableEq, Repr

/-- `SENTENCE_BOUNDARY_REGEX = /[.!?]\s*$/` — after stripping trailing
whitespace the text ends in `.`, `!` or `?`. -/
def sentenceBoundaryTest (s : String) : Bool :=
  match s.data.reverse.dropWhile jsIsWhitespace with
  | [] => false
  | c :: _ => c = '.' || c = '!' || c = '?'

/-- `c+`: a non-empty run of the character `c`. -/
def plusOf (c : Char) (cs : List Char) : Bool :=
  !cs.isEmpty && cs.all (fun x => x = c)

/-- The alternatives of `FILLER_PATTERNS = /^(um+|uh+|hmm+|ah+|er+|oh+|huh|mhm+|mm+)\.?$/i`
on an already-lowercased character list, without the optional final dot. -/
def fillerBody : List Char → Bool
  | 'u' :: rest => plusOf 'm' rest || plusOf 'h' rest
  | 'h' :: 'u' :: 'h' :: [] => true
  | 'h' :: rest => decide (rest.length ≥ 2) && plusOf 'm' rest
  | 'a' :: rest => plusOf 'h' rest
  | 'e' :: rest => plusOf 'r' rest
  | 'o' :: rest => plusOf 'h' rest
  | 'm' :: 'h' :: rest => plusOf 'm' rest
  | 'm' :: rest => plusOf 'm' rest
  | _ => false

/-- `FILLER_PATTERNS.test(trimmed)`: the entire text (case-insensitively)
is one filler token, optionally followed by a single period. -/
def isFillerOnly (cs : List Char) : Bool :=
  let lower := cs.map jsToLowerChar
  fillerBody lower || (lower.getLast? == some '.' && fillerBody lower.dropLast)

/-- `NOISE_PATTERNS = /^[^a-zA-Z]*$|^(.)\1{3,}$/`: no ASCII letters at all,
or one character (other than a newline, which `.` does not match) repeated
4 or more times to fill the whole text. -/
def isNoise (cs : List Char) : Bool :=
  cs.all (fun c => !(('a' ≤ c && c ≤ 'z') || ('A' ≤ c && c ≤ 'Z'))) ||
    (match cs with
     | c :: rest => c != '\n' && decide (rest.length ≥ 3) && rest.all (fun x => x = c)
     | [] => false)

/-- `MIN_MEANINGFUL_LENGTH = 2`. -/
def MIN_MEANINGFUL_LENGTH : Nat := 2

/-- `filterTranscriptionNoise(text)`: trim; discard (`null`) when shorter
than 2 characters, an entire filler token, or noise; else return the
trimmed text. -/
def filterTranscriptionNoise (text : String) : Option String :=
  let trimmed := jsTrim text
  if trimmed.length < MIN_MEANINGFUL_LENGTH then none
  else if isFillerOnly trimmed.data then none
  else if isNoise trimmed.data then none
  else some trimmed

/-- `addToTranscript(role, content)` at wall-clock `now`: append one
immutable message with `timestamp: Date.now()`. -/
def addToTranscript (tr : List TranscriptMessage) (role : Role) (content : String)
    (now : Int) : List TranscriptMessage :=
  tr ++ [{ role := role, content := content, timestamp := now }]

/-- The panel's `transcription.onInputTranscript(text, finished)` callback:
append the raw fragment to the user-channel buffer; when `finished` or the
buffer matches the sentence boundary, filter the complete buffered content
and flush it into the transcript, clearing the buffer.  Returns the new
buffer and transcript. -/
def onInputTranscript (buf : String) (tr : List TranscriptMessage) (text : String)
    (finished : Bool) (now : Int) : String × List TranscriptMessage :=
  let buf1 := buf ++ text
  if finished || sentenceBoundaryTest buf1 then
    match filterTranscriptionNoise (jsTrim buf1) with
    | some filtered => ("", addToTranscript tr .user filtered now)
    | none => ("", tr)
  else (buf1, tr)

/-- The panel's `transcription.onOutputTranscript(text, finished)` callback:
same flush trigger on the assistant channel, but the buffered text is only
trimmed (no noise filter) before being appended. -/
def onOutputTranscript (buf : String) (tr : List TranscriptMessage) (text : String)
    (finished : Bool) (now : Int) : String × List TranscriptMessage :=
  let buf1 := buf ++ text
  if finished || sentenceBoundaryTest buf1 then
    let buffered := jsTrim buf1
    if buffered ≠ "" then ("", addToTranscript tr .model buffered now)
    else ("", tr)
  else (buf1, tr)

/-- `flushInputBuffer()` from `useTranscriptManager`: trim the buffered
user text and append it verbatim when non-empty (used by the
turn-complete force flush and the pre-assistant causal flush). -/
def flushInputBuffer (buf : String) (tr : List TranscriptMessage) (now : Int) :
    String × List TranscriptMessage :=
  let buffered := jsTrim buf
  if buffered ≠ "" then ("", addToTranscript tr .user buffered now)
  else ("", tr)

end TranscriptM

namespace TranscriptM

/-- C5: on the user channel, the fragment sequence `"I"` (unfinished),
`" like"` (unfinished), `" trees."` (finished) produces no message for the
first two fragments (the buffer neither `finished` nor at a sentence
boundary is kept, never filtered) and exactly one finalized message
`"I like trees."` at the finishing fragment. -/
theorem user_fragments_yield_single_message (t1 t2 t3 : Int) :
    (onInputTranscript "" [] "I" false t1) = ("I", []) ∧
    (onInputTranscript "I" [] " like" false t2) = ("I like", []) ∧
    (onInputTranscript "I like" [] " trees." true t3)
      = ("", [{ role := Role.user, content := "I like trees.", timestamp := t3 }]) :=
  ⟨rfl, rfl, rfl⟩

/-- C4 (counterexample): not every flush into the transcript filters the
buffered text.  The turn-complete force flush (`flushAllBuffers` →
`flushInputBuffer` in `useTranscriptManager`) appends a buffered `"um"`
verbatim, and the assistant channel's flush appends `"um."` verbatim, even
though `filterTranscriptionNoise` discards both. -/
theorem flush_paths_not_all_filtered :
    filterTranscriptionNoise "um" = none ∧
    flushInputBuffer "um" [] 5
      = ("", [{ role := Role.user, content := "um", timestamp := 5 }]) ∧
    filterTranscriptionNoise "um." = none ∧
    onOutputTranscript "" [] "um." true 6
      = ("", [{ role := Role.model, content := "um.", timestamp := 6 }]) :=
  ⟨rfl, rfl, rfl, rfl⟩

/-- C4 (amended): on the **user channel's streaming flush path**
(`onInputTranscript`, triggered by `finished` or a sentence boundary;
individual fragments are never filtered), the fully buffered text is
filtered: the flush discards it exactly when its trimmed length is < 2, or
the entire trimmed text is a filler token (um/uh/hmm/etc.), or it contains
no letters or consists of 4+ repeated characters — so a buffered `"um"`
alone is discarded while `"um, well I think..."` is retained.  (The
turn-complete force flush and the assistant channel only drop empty text —
see the counterexample.) -/
theorem input_flush_filters_buffered_text (buf text : String)
    (tr : List TranscriptMessage) (finished : Bool) (now : Int)
    (hflush : finished = true ∨ sentenceBoundaryTest (buf ++ text) = true) :
    (filterTranscriptionNoise (jsTrim (buf ++ text)) = none →
      onInputTranscript buf tr text finished now = ("", tr)) ∧
    (∀ f, filterTranscriptionNoise (jsTrim (buf ++ text)) = some f →
      onInputTranscript buf tr text finished now = ("", addToTranscript tr .user f now)) ∧
    (∀ s : String, filterTranscriptionNoise s = none ↔
      ((jsTrim s).length < MIN_MEANINGFUL_LENGTH ∨ isFillerOnly (jsTrim s).data = true ∨
        isNoise (jsTrim s).data = true)) ∧
    filterTranscriptionNoise "um" = none ∧
    filterTranscriptionNoise "um, well I think..." = some "um, well I think..." := by
  have hcond : (finished || sentenceBoundaryTest (buf ++ text)) = true := by
    rcases hflush with h | h <;> simp [h]
  refine ⟨?_, ?_, ?_, rfl, rfl⟩
  · intro hnone
    simp [onInputTranscript, hcond, hnone]
  · intro f hf
    simp [onInputTranscript, hcond, hf]
  · intro s
    unfold filterTranscriptionNoise
    dsimp only
    split_ifs with h1 h2 h3 <;> simp_all

/-- C4 (witness): the amended theorem applied at concrete inputs — a
buffered `"um"` flushed on `finished` is discarded; a buffered
`"I like trees."` is retained. -/
theorem input_flush_filters_buffered_text_witness :
    onInputTranscript "um" [] "" true 3 = ("", []) ∧
    onInputTranscript "I like" [] " trees." true 7
      = ("", addToTranscript [] .user "I like trees." 7) :=
  ⟨(input_flush_filters_buffered_text "um" "" [] true 3 (Or.inl rfl)).1 rfl,
   (input_flush_filters_buffered_text "I like" " trees." [] true 7 (Or.inl rfl)).2.1
     "I like trees." rfl⟩

end TranscriptM

namespace TranscriptM

/-- `MAX_RECOVERY_MESSAGES = 20`. -/
def MAX_RECOVERY_MESSAGES : Nat := 20

/-- `buildQuestionContext` (interviewConfig.ts): the bracketed `[QUESTION]`
directive; the source's local `prefix` variable is called `lead` here. -/
def buildQuestionContext (content : String) (questionIndex totalQuestions : Nat)
    (isFirst : Bool) (isRecovery : Bool) : String :=
  let lead :=
    if isRecovery then
      "[QUESTION] We reconnected after a brief interruption. Please continue with the current question"
    else if isFirst then
      "[QUESTION] Please begin the interview with this first question"
    else
      "[QUESTION] The candidate is ready. Please move on to the next question"
  lead ++ " (" ++ toString (questionIndex + 1) ++ " of " ++ toString totalQuestions
    ++ "): \"" ++ content ++ "\""

/-- The `Candidate:`/`Interviewer:` line for one transcript message. -/
def summaryLine (m : TranscriptMessage) : String :=
  (match m.role with
   | .user => "Candidate"
   | .model => "Interviewer") ++ ": " ++ m.content

/-- `buildTranscriptSummary(transcript)`: `null` on an empty transcript,
otherwise the `[SESSION_RECOVERED] ... [END_RECOVERY_CONTEXT]` block over
`transcript.slice(-MAX_RECOVERY_MESSAGES)` (the most recent 20 messages,
embedded here as `drop (length - 20)`), annotated when truncated. -/
def buildTranscriptSummary (transcript : List TranscriptMessage) : Option String :=
  if transcript.length = 0 then none
  else
    let recentMessages := transcript.drop (transcript.length - MAX_RECOVERY_MESSAGES)
    let wasTruncated := transcript.length > MAX_RECOVERY_MESSAGES
    let summary := String.intercalate "\n" (recentMessages.map summaryLine)
    let truncationNote :=
      if wasTruncated then
        "[Note: Showing last " ++ toString MAX_RECOVERY_MESSAGES ++ " messages of "
          ++ toString transcript.length ++ " total]\n\n"
      else ""
    some ("[SESSION_RECOVERED] The connection was briefly interrupted. Here's what was discussed:\n\n"
      ++ truncationNote ++ summary ++ "\n\n[END_RECOVERY_CONTEXT]")

/-- The slice of `sessionDataRef.current` that `handleConnected` reads:
question contents, current index, transcript, and the first-connect flag. -/
structure SessionData where
  questions : List String
  currentQuestionIndex : Nat
  transcript : List TranscriptMessage
  hasConnectedBefore : Bool
deriving Repr

/-- The panel's `handleConnected` callback (MockInterviewPanel.tsx): reset
the timer (modelled by `QuestionTimerM.resetTimer`, which does not touch
the transcript), detect recovery (`hasConnectedBefore && transcript

nonempty`), mark `hasConnectedBefore`, send the recovery summary first when
recovering, then always send the question context (recovery-framed when
recovering, first-question-framed on the very first connect).  Returns the
updated session data and the ordered list of messages handed to
`sendQuestionContext`. -/
def handleConnected (sd : SessionData) : SessionData × List String :=
  let isRecovery := sd.hasConnectedBefore && !sd.transcript.isEmpty
  let sd1 := { sd with hasConnectedBefore := true }
  let recoveryMsgs :=
    if isRecovery then
      match buildTranscriptSummary sd.transcript with
      | some summary => [summary]
      | none => []
    else []
  let questionText := buildQuestionContext
    (sd.questions.getD sd.currentQuestionIndex "")
    sd.currentQuestionIndex sd.questions.length
    (!sd.hasConnectedBefore) isRecovery
  (sd1, recoveryMsgs ++ [questionText])

end TranscriptM

namespace TranscriptM

/-- C6: when `handleConnected` runs on a reconnect (`hasConnectedBefore`
already true) with a non-empty transcript, the bounded recovery summary
(`[SESSION_RECOVERED] ... [END_RECOVERY_CONTEXT]`, built from the most
recent `MAX_RECOVERY_MESSAGES = 20` messages and annotated when truncated
— the summary is fully determined by the last 20 messages plus the total
count, and the slice is at most 20 long) is sent strictly before the next
question context; the reconnect leaves the transcript untouched, and
appending a message at a wall-clock time no earlier than every existing
timestamp preserves the non-decreasing-timestamp invariant. -/
theorem recovery_summary_before_question (sd : SessionData)
    (hb : sd.hasConnectedBefore = true) (ht : sd.transcript ≠ []) :
    (∃ s, buildTranscriptSummary sd.transcript = some s ∧
      (handleConnected sd).2
        = [s, buildQuestionContext (sd.questions.getD sd.currentQuestionIndex "")
            sd.currentQuestionIndex sd.questions.length false true]) ∧
    (handleConnected sd).1.transcript = sd.transcript ∧
    (sd.transcript.drop (sd.transcript.length - MAX_RECOVERY_MESSAGES)).length
        ≤ MAX_RECOVERY_MESSAGES ∧
    (∀ tr' : List TranscriptMessage, tr'.length = sd.transcript.length →
      tr'.drop (tr'.length - MAX_RECOVERY_MESSAGES)
          = sd.transcript.drop (sd.transcript.length - MAX_RECOVERY_MESSAGES) →
      buildTranscriptSummary tr' = buildTranscriptSummary sd.transcript) ∧
    (∀ (tr : List TranscriptMessage) (r : Role) (c : String) (now : Int),
      tr.Chain' (fun m1 m2 => m1.timestamp ≤ m2.timestamp) →
      (∀ m ∈ tr, m.timestamp ≤ now) →
      (addToTranscript tr r c now).Chain' (fun m1 m2 => m1.timestamp ≤ m2.timestamp)) := by
  have hlen : ¬ (sd.transcript.length = 0) := by
    simpa [List.length_eq_zero] using ht
  obtain ⟨s, hs⟩ : ∃ s, buildTranscriptSummary sd.transcript = some s := by
    unfold buildTranscriptSummary
    rw [if_neg hlen]
    exact ⟨_, rfl⟩
  have hempty : sd.transcript.isEmpty = false := by
    cases h : sd.transcript with
    | nil => exact absurd h ht
    | cons a l => simp [List.isEmpty]
  refine ⟨⟨s, hs, ?_⟩, rfl, ?_, ?_, ?_⟩
  · simp [handleConnected, hb, hempty, hs]
  · rw [List.length_drop]
    omega
  · intro tr' h1 h2
    rw [h1] at h2
    unfold buildTranscriptSummary
    rw [h1, h2]
  · intro tr r c now hchain hle
    unfold addToTranscript
    rw [List.chain'_append]
    refine ⟨hchain, List.chain'_singleton _, ?_⟩
    intro x hx y hy
    simp at hy
    subst hy
    obtain ⟨hne, rfl⟩ := List.mem_getLast?_eq_getLast hx
    exact hle _ (List.getLast_mem hne)

/-- C6 (witness): the theorem applied to a concrete reconnect with a
two-message transcript. -/
theorem recovery_summary_before_question_witness :
    (∃ s, buildTranscriptSummary
        [{ role := Role.user, content := "hi", timestamp := 10 },
         { role := Role.model, content := "hello", timestamp := 11 }] = some s ∧
      (handleConnected
        { questions := ["Q1", "Q2"], currentQuestionIndex := 1,
          transcript :=
            [{ role := Role.user, content := "hi", timestamp := 10 },
             { role := Role.model, content := "hello", timestamp := 11 }],
          hasConnectedBefore := true }).2 = [s, buildQuestionContext "Q2" 1 2 false true]) ∧
    (handleConnected
        { questions := ["Q1", "Q2"], currentQuestionIndex := 1,
          transcript :=
            [{ role := Role.user, content := "hi", timestamp := 10 },
             { role := Role.model, content := "hello", timestamp := 11 }],
          hasConnectedBefore := true }).1.transcript
      = [{ role := Role.user, content := "hi", timestamp := 10 },
         { role := Role.model, content := "hello", timestamp := 11 }] := by
  have h := recovery_summary_before_question
    { questions := ["Q1", "Q2"], currentQuestionIndex := 1,
      transcript :=
        [{ role := Role.user, content := "hi", timestamp := 10 },
         { role := Role.model, content := "hello", timestamp := 11 }],
      hasConnectedBefore := true } rfl (by decide)
  exact ⟨h.1, h.2.1⟩

end TranscriptM

/-! ## InterviewFlowController, end of interview
(src/hooks/useInterviewFlow.ts, `handleInterviewEnd`) -/

namespace FlowM

/-- Session status in the persisted record. -/
inductive SessionStatus where
  | inProgress
  | completed
  | incomplete
deriving DecidableEq, Repr

/-- The interview flow states (`InterviewFlowState` in types/resume.ts). -/
inductive InterviewFlowState where
  | INITIAL
  | BLOCKED
  | UPLOAD
  | PARSING
  | PARSE_ERROR
  | REVIEW
  | SETUP
  | GENERATING
  | GEN_ERROR
  | INTERVIEWING
  | ANALYZING
  | COMPLETE
deriving DecidableEq, Repr

/-- Observable outcome of `handleInterviewEnd`: what session record was
persisted (its status and whether a feedback value was stored), whether
`releaseLock(currentSessionId)` ran, and the final flow state. -/
structure EndOutcome where
  saved : Option (SessionStatus × Option String)
  lockReleased : Bool
  flowState : InterviewFlowState
deriving DecidableEq, Repr

/-- `handleInterviewEnd(finalTranscript, wasEarly)`, by control flow of the
source:

* missing resume data / persona (the defensive guard): no save,
  `releaseLock`, flow `COMPLETE`;
* `analyzeInterviewSession` resolves with feedback and the subsequent
  `saveSession` succeeds: save with status `wasEarly ? 'incomplete' :
  'completed'` and the feedback, `releaseLock`, flow `COMPLETE`;
* `analyzeInterviewSession` rejects — or the try-block's `saveSession`
  throws — landing in the catch block: save the session again **without
  feedback** and with status `'incomplete'` (this fallback save's own
  failure is swallowed by `.catch`), then `releaseLock` regardless, flow
  `COMPLETE`.

`feedback` is the settled result of `analyzeInterviewSession`;
`primarySaveOk` / `fallbackSaveOk` say whether the two `saveSession` calls
succeed against storage. -/
def handleInterviewEnd (hasData : Bool) (feedback : Except String String)
    (primarySaveOk fallbackSaveOk : Bool) (wasEarly : Bool) : EndOutcome :=
  if hasData = false then
    { saved := none, lockReleased := true, flowState := .COMPLETE }
  else
    match feedback with
    | .ok fb =>
      if primarySaveOk then
        { saved := some (if wasEarly then .incomplete else .completed, some fb),
          lockReleased := true, flowState := .COMPLETE }
      else
        { saved := if fallbackSaveOk then some (.incomplete, none) else none,
          lockReleased := true, flowState := .COMPLETE }
    | .error _ =>
      { saved := if fallbackSaveOk then some (.incomplete, none) else none,
        lockReleased := true, flowState := .COMPLETE }

/-- C7 (counterexample): when feedback generation fails at the end of a
fully-played interview (`wasEarly = false`), the session is saved without
feedback but with status `'incomplete'`, not `'completed'` as the claim
states. -/
theorem feedback_failure_marks_incomplete :
    (handleInterviewEnd true (.error "analysis failed") true true false).saved
      = some (SessionStatus.incomplete, none) ∧
    SessionStatus.incomplete ≠ SessionStatus.completed := by
  exact ⟨rfl, by decide⟩

/-- C7 (amended): when feedback generation fails, the flow degrades
gracefully — the session is still saved (storage permitting) without
feedback and marked `'incomplete'`, the flow state still reaches
`COMPLETE`, and the SessionLock is released unconditionally (on the
success path, the failure path, the fallback-save failure path, and the
missing-data guard alike), so subsequent sessions are never deadlocked. -/
theorem feedback_failure_degrades_gracefully :
    (∀ (e : String) (p : Bool) (w : Bool),
      (handleInterviewEnd true (.error e) p true w).saved
          = some (SessionStatus.incomplete, none) ∧
      (handleInterviewEnd true (.error e) p true w).flowState
          = InterviewFlowState.COMPLETE) ∧
    (∀ (hasData : Bool) (feedback : Except String String)
        (primarySaveOk fallbackSaveOk wasEarly : Bool),
      (handleInterviewEnd hasData feedback primarySaveOk fallbackSaveOk
          wasEarly).lockReleased = true) := by
  constructor
  · intro e p w
    exact ⟨rfl, rfl⟩
  · intro hasData feedback p f w
    cases feedback with
    | ok fb =>
      unfold handleInterviewEnd
      split
      · rfl
      · dsimp only
        split <;> rfl
    | error e =>
      unfold handleInterviewEnd
      split
      · rfl
      · rfl

end FlowM

/-! ## SessionConnection teardown
(src/hooks/useInterviewSession.ts, `stopSession`) -/

namespace SessionConnM

/-- The refs and React state that `stopSession` touches.  Object-valued
refs are modelled by whether they currently hold a value
(`sessionRef`, `processorRef`, `sourceRef`, `streamRef`,
`inputContextRef`, `outputContextRef`); `audioSources` is the size of the
tracked playback-source set. -/
structure ConnState where
  sessionClosing : Bool
  active : Bool
  session : Bool
  audioSources : Nat
  processor : Bool
  source : Bool
  stream : Bool
  inputCtx : Bool
  outputCtx : Bool
  isConnected : Bool
  volumeLevel : Int
  aiSpeaking : Bool
  nextStartTime : Int
deriving DecidableEq, Repr

/-- Which teardown sub-operations were invoked by one `stopSession` call. -/
structure TeardownOps where
  closeSessionCalled : Bool
  stopPlaybackSourcesCalled : Nat
  disconnectProcessorCalled : Bool
  disconnectSourceCalled : Bool
  stopCaptureTracksCalled : Bool
  closeInputCtxCalled : Bool
  closeOutputCtxCalled : Bool
deriving DecidableEq, Repr

/-- Which of the guarded sub-operations throw.  In the source every one of
these calls sits inside `try { ... } catch { logger.debug(...) }`
(`session.close()`, each `audioSource.stop()`, the two `disconnect()`s and
the two `AudioContext.close()`s); `MediaStreamTrack.stop()` never throws
per the platform specification, so it has no entry. -/
structure FailEnv where
  sessionCloseThrows : Bool
  sourceStopThrows : Bool
  processorDisconnectThrows : Bool
  sourceDisconnectThrows : Bool
  inputCloseThrows : Bool
  outputCloseThrows : Bool
deriving DecidableEq, Repr

/-- The state every `stopSession` call leaves behind: closing flag set,
active flag cleared, every ref nulled, the source set emptied,
`isConnected`, `volumeLevel`, `aiSpeaking` and the playback cursor reset. -/
def clearedConnState : ConnState :=
  { sessionClosing := true, active := false, session := false,
    audioSources := 0, processor := false, source := false, stream := false,
    inputCtx := false, outputCtx := false, isConnected := false,
    volumeLevel := 0, aiSpeaking := false, nextStartTime := 0 }

/-- `stopSession()`, translated statement by statement.  Each guarded call
is attempted exactly when its ref is non-null; any exception it raises is
swallowed by its `try`/`catch`, and the subsequent ref-clearing assignment
is outside the `try`, so the resulting state never depends on `env` — the
call runs to completion (never throws) on every path. -/
def stopSession (env : FailEnv) (s : ConnState) : ConnState × TeardownOps :=
  -- `env` is consumed only to emphasize that the swallowed exceptions
  -- cannot influence the outcome; no field of the result reads it.
  let _ := env
  (clearedConnState,
   { closeSessionCalled := s.session,
     stopPlaybackSourcesCalled := s.audioSources,
     disconnectProcessorCalled := s.processor,
     disconnectSourceCalled := s.source,
     stopCaptureTracksCalled := s.stream,
     closeInputCtxCalled := s.inputCtx,
     closeOutputCtxCalled := s.outputCtx })

/-- C8: `stopSession()` is idempotent and total: under any combination of
sub-operation failures (all swallowed — the outcome never depends on
`env`, i.e. nothing propagates an exception), a call leaves
`isConnected = false`, and a second call changes nothing and again leaves
`isConnected = false`; every invocation ends in the fully cleared state;
the first call from a populated state stops the capture tracks (when a
stream exists), disconnects both processing nodes (when present), closes
both audio contexts (when present) and stops every tracked playback
source, and the second call finds nothing left to tear down. -/
theorem stopSession_idempotent_safe (env env2 : FailEnv) (s : ConnState) :
    (stopSession env s).1.isConnected = false ∧
    (stopSession env2 (stopSession env s).1).1.isConnected = false ∧
    (stopSession env2 (stopSession env s).1).1 = (stopSession env s).1 ∧
    stopSession env s = stopSession env2 s ∧
    (stopSession env s).1 = clearedConnState ∧
    (stopSession env s).2.stopCaptureTracksCalled = s.stream ∧
    (stopSession env s).2.disconnectProcessorCalled = s.processor ∧
    (stopSession env s).2.disconnectSourceCalled = s.source ∧
    (stopSession env s).2.closeInputCtxCalled = s.inputCtx ∧
    (stopSession env s).2.closeOutputCtxCalled = s.outputCtx ∧
    (stopSession env s).2.closeSessionCalled = s.session ∧
    (stopSession env s).2.stopPlaybackSourcesCalled = s.audioSources ∧
    (stopSession env2 (stopSession env s).1).2
      = { closeSessionCalled := false, stopPlaybackSourcesCalled := 0,
          disconnectProcessorCalled := false, disconnectSourceCalled := false,
          stopCaptureTracksCalled := false, closeInputCtxCalled := false,
          closeOutputCtxCalled := false } :=
  ⟨rfl, rfl, rfl, rfl, rfl, rfl, rfl, rfl, rfl, rfl, rfl, rfl, rfl⟩

end SessionConnM

/-! ## Resume id and `saveResume`
(packages/storage/src/indexedDB.ts) -/

namespace ResumeIdM

/-- Wrap to a signed 32-bit integer — the effect of JS `| 0`. -/
def toInt32 (n : Int) : Int := (n + 2 ^ 31) % 2 ^ 32 - 2 ^ 31

/-- One step of the hash loop:
`hash = ((hash << 5) - hash) + char; hash = hash | 0;`
(`hash << 5` itself wraps to 32 bits; the intermediate sum is exact in a
JS double and then wrapped by `| 0`). -/
def jsHashStep (hash : Int) (code : Nat) : Int :=
  toInt32 (toInt32 (hash * 32) - hash + code)

/-- `charCodeAt` over the whole string, folded from `hash = 0`
(UTF-16 code units; equal to code points on the BMP strings used here). -/
def hashOfString (s : String) : Int :=
  (s.data.map Char.toNat).foldl jsHashStep 0

/-- A base-36 digit (JS `Number.prototype.toString(36)`, lowercase). -/
def base36Digit (n : Nat) : Char :=
  if n < 10 then Char.ofNat (48 + n) else Char.ofNat (87 + n)

/-- Digit expansion for `toString(36)`, most significant first (`fuel`
bounds the recursion; `n + 1` steps always suffice). -/
def toBase36Aux : Nat → Nat → List Char → List Char
  | 0, _, acc => acc
  | fuel + 1, n, acc =>
    if n = 0 then acc
    else toBase36Aux fuel (n / 36) (base36Digit (n % 36) :: acc)

/-- JS `n.toString(36)` for a non-negative integer. -/
def jsToString36 (n : Nat) : String :=
  if n = 0 then "0" else (toBase36Aux (n + 1) n []).asString

/-- JS `Array.prototype.sort()` with the default comparator on an array of
strings: sorts by the code-unit lexicographic order (`jsStrLe`); the
result is the unique `jsStrLe`-sorted permutation of the input. -/
def jsSortStrings (l : List String) : List String :=
  List.insertionSort (fun a b => jsStrLe a b = true) l

/-- `generateResumeId(resume)`:
`normalized = name.toLowerCase().trim() + "|" + skills.slice().sort().join(',').toLowerCase()`
hashed and rendered as `resume_` + `Math.abs(hash).toString(36)`.
Note the source sorts the skills **before** lowercasing them. -/
def generateResumeId (name : String) (skills : List String) : String :=
  let normalized := jsTrim (jsToLower name) ++ "|"
    ++ jsToLower (String.intercalate "," (jsSortStrings skills))
  "resume_" ++ jsToString36 (hashOfString normalized).natAbs

/-- A stored resume record (`StoredResume`), with the resume payload
reduced to the fields `generateResumeId` reads. -/
structure StoredResume where
  id : String
  name : String
  skills : List String
  createdAt : Int
  lastUsed : Int
deriving DecidableEq, Repr

/-- IndexedDB `store.put` on a store with `keyPath: 'id'`: replaces the
record with the same key, else appends. -/
def putResume (store : List StoredResume) (r : StoredResume) : List StoredResume :=
  if store.any (fun x => x.id = r.id) then
    store.map (fun x => if x.id = r.id then r else x)
  else store ++ [r]

/-- IndexedDB `store.get(id)`. -/
def getResumeRec (store : List StoredResume) (id : String) : Option StoredResume :=
  store.find? (fun x => x.id = id)

/-- `saveResume(resume)`: compute the deterministic id, keep the existing
record's `createdAt` when present, set `lastUsed = now`, and `put` under
the id (overwriting any record with the same key).  Returns the id and the
new store. -/
def saveResume (store : List StoredResume) (name : String) (skills : List String)
    (now : Int) : String × List StoredResume :=
  let id := generateResumeId name skills
  let existing := getResumeRec store id
  let record : StoredResume :=
    { id := id, name := name, skills := skills,
      createdAt := match existing with | some e => e.createdAt | none => now,
      lastUsed := now }
  (id, putResume store record)

end ResumeIdM

namespace ResumeIdM

theorem charEq_of_toNat_eq {a b : Char} (h : a.toNat = b.toNat) : a = b := by
  apply Char.ext
  exact UInt32.toNat.inj h

theorem jsStrLtL_trichotomy : ∀ as bs : List Char,
    jsStrLtL as bs = true ∨ jsStrLtL bs as = true ∨ as = bs := by
  intro as
  induction as with
  | nil =>
    intro bs
    cases bs with
    | nil => right; right; rfl
    | cons b bs => left; rfl
  | cons a as ih =>
    intro bs
    cases bs with
    | nil => right; left; rfl
    | cons b bs =>
      rcases Nat.lt_trichotomy a.toNat b.toNat with h | h | h
      · left
        simp [jsStrLtL, h]
      · have hab : a = b := charEq_of_toNat_eq h
        subst hab
        rcases ih bs with h1 | h1 | h1
        · left; simp [jsStrLtL, h1]
        · right; left; simp [jsStrLtL, h1]
        · right; right; rw [h1]
      · right; left
        simp [jsStrLtL, h]

theorem jsStrLtL_asymm : ∀ as bs : List Char,
    jsStrLtL as bs = true → jsStrLtL bs as = false := by
  intro as
  induction as with
  | nil =>
    intro bs h
    cases bs with
    | nil => simp [jsStrLtL] at h
    | cons b bs => rfl
  | cons a as ih =>
    intro bs h
    cases bs with
    | nil => simp [jsStrLtL] at h
    | cons b bs =>
      rcases Nat.lt_trichotomy a.toNat b.toNat with hc | hc | hc
      · simp [jsStrLtL, hc, Nat.lt_asymm hc, Nat.ne_of_lt hc]
      · have hab : a = b := charEq_of_toNat_eq hc
        subst hab
        simp only [jsStrLtL, lt_irrefl, if_false] at h ⊢
        exact ih bs h
      · simp [jsStrLtL, hc, Nat.lt_asymm hc] at h

theorem jsStrLtL_trans : ∀ as bs cs : List Char,
    jsStrLtL as bs = true → jsStrLtL bs cs = true → jsStrLtL as cs = true := by
  intro as
  induction as with
  | nil =>
    intro bs cs h1 h2
    cases bs with
    | nil => simp [jsStrLtL] at h1
    | cons b bs =>
      cases cs with
      | nil => simp [jsStrLtL] at h2
      | cons c cs => rfl
  | cons a as ih =>
    intro bs cs h1 h2
    cases bs with
    | nil => simp [jsStrLtL] at h1
    | cons b bs =>
      cases cs with
      | nil => simp [jsStrLtL] at h2
      | cons c cs =>
        rcases Nat.lt_trichotomy a.toNat b.toNat with hab | hab | hab <;>
          rcases Nat.lt_trichotomy b.toNat c.toNat with hbc | hbc | hbc
        · simp [jsStrLtL, Nat.lt_trans hab hbc]
        · have : b = c := charEq_of_toNat_eq hbc
          subst this
          simp [jsStrLtL, hab]
        · simp [jsStrLtL, hbc, Nat.lt_asymm hbc] at h2
        · have : a = b := charEq_of_toNat_eq hab
          subst this
          simp [jsStrLtL, hbc]
        · have h3 : a = b := charEq_of_toNat_eq hab
          have h4 : b = c := charEq_of_toNat_eq hbc
          subst h3; subst h4
          simp only [jsStrLtL, lt_irrefl, if_false] at h1 h2 ⊢
          exact ih bs cs h1 h2
        · simp [jsStrLtL, hbc, Nat.lt_asymm hbc] at h2
        · simp [jsStrLtL, hab, Nat.lt_asymm hab] at h1
        · simp [jsStrLtL, hab, Nat.lt_asymm hab] at h1
        · simp [jsStrLtL, hab, Nat.lt_asymm hab] at h1

end ResumeIdM

namespace ResumeIdM

theorem stringEq_of_data_eq {a b : String} (h : a.data = b.data) : a = b := by
  cases a
  cases b
  exact congrArg String.mk (by simpa using h)

theorem jsStrLtL_irrefl : ∀ as : List Char, jsStrLtL as as = false := by
  intro as
  induction as with
  | nil => rfl
  | cons a as ih => simp [jsStrLtL, ih]

/-- `jsStrLe` (the default-sort order) is total. -/
instance : IsTotal String (fun a b => jsStrLe a b = true) where
  total a b := by
    simp only [jsStrLe, jsStrLt, Bool.not_eq_true']
    rcases jsStrLtL_trichotomy a.data b.data with h | h | h
    · left; exact jsStrLtL_asymm _ _ h
    · right; exact jsStrLtL_asymm _ _ h
    · left; rw [h, jsStrLtL_irrefl]

/-- `jsStrLe` is transitive. -/
instance : IsTrans String (fun a b => jsStrLe a b = true) where
  trans a b c hab hbc := by
    simp only [jsStrLe, jsStrLt, Bool.not_eq_true'] at hab hbc ⊢
    cases hca : jsStrLtL c.data a.data
    · rfl
    · exfalso
      rcases jsStrLtL_trichotomy a.data b.data with h | h | h
      · have h3 := jsStrLtL_trans _ _ _ hca h
        rw [hbc] at h3
        simp at h3
      · rw [hab] at h
        simp at h
      · rw [h] at hca
        rw [hbc] at hca
        simp at hca

/-- `jsStrLe` is antisymmetric. -/
instance : IsAntisymm String (fun a b => jsStrLe a b = true) where
  antisymm a b hab hba := by
    simp only [jsStrLe, jsStrLt, Bool.not_eq_true'] at hab hba
    rcases jsStrLtL_trichotomy a.data b.data with h | h | h
    · rw [h] at hba; exact absurd hba (by simp)
    · rw [h] at hab; exact absurd hab (by simp)
    · exact stringEq_of_data_eq h

end ResumeIdM

namespace ResumeIdM

/-- The default sort is determined by the multiset of elements. -/
theorem jsSortStrings_perm_eq {l1 l2 : List String} (h : l1.Perm l2) :
    jsSortStrings l1 = jsSortStrings l2 :=
  List.eq_of_perm_of_sorted
    ((List.perm_insertionSort _ l1).trans (h.trans (List.perm_insertionSort _ l2).symm))
    (List.sorted_insertionSort _ l1) (List.sorted_insertionSort _ l2)

theorem putResume_eq_map_of_any (store : List StoredResume) (r : StoredResume)
    (h : store.any (fun x => x.id = r.id) = true) :
    putResume store r = store.map (fun x => if x.id = r.id then r else x) := by
  unfold putResume
  rw [if_pos h]

theorem putResume_mem_id (store : List StoredResume) (r : StoredResume) :
    (putResume store r).any (fun x => x.id = r.id) = true := by
  unfold putResume
  by_cases h : store.any (fun x => x.id = r.id) = true
  · rw [if_pos h]
    rw [List.any_eq_true] at h ⊢
    obtain ⟨x, hx, hxid⟩ := h
    refine ⟨if x.id = r.id then r else x, List.mem_map_of_mem _ hx, ?_⟩
    simp only [decide_eq_true_eq] at hxid
    simp [hxid]
  · rw [if_neg h]
    rw [List.any_append]
    simp

theorem putResume_putResume_length (store : List StoredResume) (r r' : StoredResume)
    (h : r'.id = r.id) :
    (putResume (putResume store r) r').length = (putResume store r).length := by
  have hmem : (putResume store r).any (fun x => x.id = r'.id) = true := by
    rw [h]
    exact putResume_mem_id store r
  rw [putResume_eq_map_of_any _ _ hmem]
  exact List.length_map _ _

end ResumeIdM

namespace ResumeIdM

/-- C9 (counterexample): `generateResumeId` is *not* invariant under
letter-case changes of the skills.  The names are identical and the skill
lists are equal up to order and letter case (their lowercasings are
permutations of each other), yet the ids differ, because the source sorts
the raw skills case-sensitively *before* lowercasing the joined string:
`["a","B"]` sorts to `B,a` → `b,a` while `["A","b"]` sorts to `A,b` →
`a,b`. -/
theorem resumeId_not_case_insensitive :
    jsToLower "x" = jsToLower "x" ∧
    (["a", "B"].map jsToLower).Perm (["A", "b"].map jsToLower) ∧
    generateResumeId "x" ["a", "B"] ≠ generateResumeId "x" ["A", "b"] := by
  refine ⟨rfl, by decide, by decide⟩

/-- C9 (amended): `generateResumeId` is a deterministic hash of the
lowercased-and-trimmed name and the case-sensitively sorted,
then-lowercased skills: two resumes whose names are equal up to letter
case and whose skill lists are equal as multisets of *exact* strings (any
order, same case) map to the same id; re-save is then idempotent —
`saveResume` returns the same key and the second `put` overwrites the same
stored record instead of creating a new one (the store does not grow).
Equality up to skill letter case is **not** sufficient (see the
counterexample). -/
theorem resumeId_perm_invariant (name1 name2 : String) (skills1 skills2 : List String)
    (hname : jsToLower name1 = jsToLower name2)
    (hskills : skills1.Perm skills2) :
    generateResumeId name1 skills1 = generateResumeId name2 skills2 ∧
    (∀ (store : List StoredResume) (now now2 : Int),
      (saveResume store name1 skills1 now).1 = (saveResume store name2 skills2 now2).1 ∧
      ((saveResume (saveResume store name1 skills1 now).2 name2 skills2 now2).2).length
        = ((saveResume store name1 skills1 now).2).length) := by
  have hid : generateResumeId name1 skills1 = generateResumeId name2 skills2 := by
    unfold generateResumeId
    rw [hname, jsSortStrings_perm_eq hskills]
  refine ⟨hid, ?_⟩
  intro store now now2
  constructor
  · exact hid
  · unfold saveResume
    dsimp only
    apply putResume_putResume_length
    exact hid.symm

/-- C9 (witness): the amended theorem at a concrete case-variant,
order-variant pair. -/
theorem resumeId_perm_invariant_witness :
    generateResumeId "Ann" ["beta", "alpha"] = generateResumeId "ann" ["alpha", "beta"] :=
  (resumeId_perm_invariant "Ann" "ann" ["beta", "alpha"] ["alpha", "beta"]
    (by decide) (by decide)).1

end ResumeIdM

/-! ## Question-set sizing
(`GeminiService.generateInterviewQuestions`, config/interview.ts) -/

namespace QuestionGenM

/-- `QUESTION_TIMEOUT_MINUTES = 3` — the fixed per-question limit in
minutes (config/interview.ts, the same constant the timer derives
`QUESTION_TIME_LIMIT_MS` from). -/
def QUESTION_TIMEOUT_MINUTES : Nat := 3

/-- The question count `generateInterviewQuestions` requests from the
model: `Math.max(3, Math.floor(durationMinutes / QUESTION_TIMEOUT_MINUTES))`
(natural-number division is the floor of the exact quotient). -/
def targetQuestions (durationMinutes : Nat) : Nat :=
  max 3 (durationMinutes / QUESTION_TIMEOUT_MINUTES)

/-- C10: for every duration, the requested question-set size equals
`max(3, floor(durationMinutes / perQuestionLimitMinutes))` with the fixed
3-minute per-question limit — never below the 3-question floor — and a
30-minute interview requests exactly 10 questions. -/
theorem question_count_formula :
    (∀ d : Nat, targetQuestions d = max 3 (d / QUESTION_TIMEOUT_MINUTES)) ∧
    (∀ d : Nat, 3 ≤ targetQuestions d) ∧
    QUESTION_TIMEOUT_MINUTES = 3 ∧
    targetQuestions 30 = 10 := by
  refine ⟨fun d => rfl, fun d => Nat.le_max_left _ _, rfl, rfl⟩

/-- The timer's millisecond limit is derived from the same constant:
`QUESTION_TIME_LIMIT_MS = QUESTION_TIMEOUT_MINUTES * 60 * 1000`. -/
theorem time_limit_consistent :
    QuestionTimerM.QUESTION_TIME_LIMIT_MS = (QUESTION_TIMEOUT_MINUTES : Int) * 60 * 1000 := by
  rfl

end QuestionGenM
